/-
  Verification of the mvsim inter-process communication core against its
  specification.

  The repository sources available are the public headers
  `src/modules/comms/include/mvsim/Comms/Client.h` and
  `src/libmvsim/include/mvsim/VehicleBase.h`.  The bodies of the comms layer
  (registry, envelope codec, client runtime, server) are not part of the
  source tree here, so those components are modelled from the specification
  (`spec.md`); each such definition is marked `Modelled from the spec:`.
  Definitions taken from the headers themselves (client defaults, the
  `VehicleBase` pose accessors) follow the source text directly.
-/
import Mathlib

namespace Mvsim

/-! ## Data model: registry, session state machine, errors -/

/-- Modelled from the spec: NodeInfo record (spec §3): `name` (string, unique
among live nodes), `endpoints` (addresses for data-plane), `registeredAt`,
`lastHeartbeat`.  The implementation file is missing from src/. -/
structure NodeInfo where
  name : String
  endpoints : List String
  registeredAt : Nat
  lastHeartbeat : Nat
deriving DecidableEq, Repr

/-- Modelled from the spec: the ClientSession state machine (spec §3):
states Disconnected → Connecting → Registered → Active → ShuttingDown →
Closed.  The implementation file is missing from src/. -/
inductive SessionState where
  | Disconnected
  | Connecting
  | Registered
  | Active
  | ShuttingDown
  | Closed
deriving DecidableEq, Repr

/-- Modelled from the spec: error kinds of spec §7: NotConnected,
DuplicateName, Timeout, MalformedMessage, ConnectionLost. -/
inductive ErrorKind where
  | NotConnected
  | DuplicateName
  | Timeout
  | MalformedMessage
  | ConnectionLost
deriving DecidableEq, Repr

/-- Modelled from the spec: reply kinds of the REGISTER control message
(spec §4.2): the server replies OK or DuplicateName. -/
inductive RegisterReply where
  | OK
  | DuplicateName
deriving DecidableEq, Repr

/-- Modelled from the spec: the Node Registry is a server-owned mapping of
node name → metadata (spec §2, §4.3); modelled as a list of NodeInfo
entries whose names are unique among currently-registered nodes. -/
abbrev Registry := List NodeInfo

/-- The list of names currently present in the registry. -/
def names (reg : Registry) : List String := reg.map (fun e => e.name)

/-- Whether a name is currently present in the registry. -/
def registryHasName (reg : Registry) (n : String) : Bool :=
  reg.any (fun e => decide (e.name = n))

/-- Modelled from the spec: `register(name, info)` (spec §4.3): atomic
check-and-insert; returns `DuplicateName` if the name is currently present,
otherwise inserts and returns OK.  The implementation file is missing from
src/. -/
def register (reg : Registry) (info : NodeInfo) : RegisterReply × Registry :=
  if registryHasName reg info.name then (RegisterReply.DuplicateName, reg)
  else (RegisterReply.OK, reg ++ [info])

/-- Modelled from the spec: `unregister(name)` (spec §4.3): idempotent
removal.  The implementation file is missing from src/. -/
def unregister (reg : Registry) (n : String) : Registry :=
  reg.filter (fun e => decide (e.name ≠ n))

/-- Modelled from the spec: `snapshot()` / LIST_NODES (spec §4.2, §4.3):
returns an immutable, independently ordered copy of the registry, ordered
by name; entries of the NODE_LIST reply carry the node name (spec §6). -/
def snapshot (reg : Registry) : List String :=
  List.insertionSort (· ≤ ·) (names reg)

/-! ## Client runtime (from `Client.h` defaults plus the spec's state machine) -/

/-- The client state.  Field defaults come from the source
(`Client.h`: `serverHostAddress_ = "localhost"`, `nodeName_ = "anonymous"`);
the session state, background context and channel bookkeeping are modelled
from the spec (§3, §4.1), whose implementation file is missing from src/. -/
structure Client where
  serverHostAddress : String := "localhost"
  nodeName : String := "anonymous"
  state : SessionState := SessionState.Disconnected
  contextRunning : Bool := false
  channelsOpen : Bool := false
deriving DecidableEq, Repr

/-- A freshly constructed Client, with the defaults of `Client.h`. -/
def Client.new : Client := {}

/-- Modelled from the spec: `setName(name)` (spec §4.1): only valid while
`Disconnected`; sets the node identity.  The implementation file is missing
from src/; `Client.h` declares `void setName(const std::string&)`. -/
def setName (c : Client) (n : String) : Option Client :=
  if c.state = SessionState.Disconnected then
    some { c with nodeName := n }
  else none

/-- Modelled from the spec: the server host address is part of the
configuration surface set before `connect()` (spec §6); `Client.h` holds the
field `serverHostAddress_`.  Like `setName`, only valid while Disconnected. -/
def setServerHostAddress (c : Client) (a : String) : Option Client :=
  if c.state = SessionState.Disconnected then
    some { c with serverHostAddress := a }
  else none

/-- Modelled from the spec: the REGISTER exchange of `connect()` (spec §4.1):
open control connection → send REGISTER(name) → on `DuplicateName` leave
state `Disconnected`; on success move to `Registered`.  The state-machine
table (spec §4.1) drives the transitions.  The implementation file is
missing from src/.  `endpoints` and `now` populate the NodeInfo record. -/
def connectAttempt (reg : Registry) (c : Client) (endpoints : List String)
    (now : Nat) : Registry × Client :=
  let c1 := { c with state := SessionState.Connecting, contextRunning := true }
  match register reg ⟨c.nodeName, endpoints, now, now⟩ with
  | (RegisterReply.OK, reg1) =>
      (reg1, { c1 with state := SessionState.Registered, channelsOpen := true })
  | (RegisterReply.DuplicateName, reg1) =>
      (reg1, { c1 with state := SessionState.Disconnected })

/-! ## Basic registry lemmas -/

theorem registryHasName_append_single (reg : Registry) (info : NodeInfo)
    (n : String) :
    registryHasName (reg ++ [info]) n =
      (registryHasName reg n || decide (info.name = n)) := by
  simp [registryHasName]

theorem registryHasName_unregister (reg : Registry) (n : String) :
    registryHasName (unregister reg n) n = false := by
  induction reg with
  | nil => simp [registryHasName, unregister]
  | cons e reg ih =>
      by_cases h : e.name = n
      · simpa [registryHasName, unregister, h] using ih
      · simpa [registryHasName, unregister, h] using ih

theorem unregister_unregister (reg : Registry) (n : String) :
    unregister (unregister reg n) n = unregister reg n := by
  simp [unregister, List.filter_filter]

theorem unregister_of_absent (reg : Registry) (n : String)
    (h : registryHasName reg n = false) : unregister reg n = reg := by
  induction reg with
  | nil => simp [unregister]
  | cons e reg ih =>
      simp only [registryHasName, List.any_cons, Bool.or_eq_false_iff,
        decide_eq_false_iff_not] at h
      simp only [unregister, List.filter_cons, decide_eq_true_eq]
      rw [if_pos h.1]
      have : unregister reg n = reg := ih (by
        simpa [registryHasName] using h.2)
      simpa [unregister] using this

/-! ## Claim C1 -/

/-- C1: For every registry state and every name currently present in it, a
second REGISTER of that same name from a different session fails with
DuplicateName — the reply is DuplicateName, the registry is left unchanged,
and the second client's session stays Disconnected — while a REGISTER of a
name not currently present succeeds with OK. -/
theorem register_duplicate_name_rejected (reg : Registry) (c : Client)
    (endpoints : List String) (now : Nat)
    (hdisc : c.state = SessionState.Disconnected) :
    (registryHasName reg c.nodeName = true →
      register reg ⟨c.nodeName, endpoints, now, now⟩ =
        (RegisterReply.DuplicateName, reg) ∧
      (connectAttempt reg c endpoints now).1 = reg ∧
      (connectAttempt reg c endpoints now).2.state =
        SessionState.Disconnected) ∧
    (registryHasName reg c.nodeName = false →
      (register reg ⟨c.nodeName, endpoints, now, now⟩).1 = RegisterReply.OK) := by
  constructor
  · intro hpresent
    have hreg : register reg ⟨c.nodeName, endpoints, now, now⟩ =
        (RegisterReply.DuplicateName, reg) := by
      simp [register, hpresent]
    refine ⟨hreg, ?_, ?_⟩
    · simp [connectAttempt, hreg]
    · simp [connectAttempt, hreg]
  · intro habsent
    simp [register, habsent]

/-- Witness for C1 at a concrete registry and client. -/
theorem register_duplicate_name_rejected_witness :
    (register [⟨"veh1", [], 0, 0⟩]
        ⟨"veh1", [], 1, 1⟩).1 = RegisterReply.DuplicateName ∧
    (connectAttempt [⟨"veh1", [], 0, 0⟩] { Client.new with nodeName := "veh1" }
        [] 1).2.state = SessionState.Disconnected := by
  have h := register_duplicate_name_rejected [⟨"veh1", [], 0, 0⟩]
    { Client.new with nodeName := "veh1" } [] 1 rfl
  have h1 := h.1 (by decide)
  exact ⟨by rw [h1.1], h1.2.2⟩

/-! ## Claim C6 -/

/-- C6: Names are reusable after release: the sequence register(A);
unregister(A); register(A) ends with the second register(A) succeeding, and
unregister(name) is idempotent — removing an absent name is not an error and
leaves the registry unchanged. -/
theorem names_reusable_after_release (reg : Registry) (A : String)
    (info info2 : NodeInfo) (hA : info.name = A) (hA2 : info2.name = A) :
    (register (unregister (register reg info).2 A) info2).1 =
        RegisterReply.OK ∧
    (∀ r : Registry, unregister (unregister r A) A = unregister r A) ∧
    (∀ r : Registry, registryHasName r A = false → unregister r A = r) := by
  refine ⟨?_, fun r => unregister_unregister r A, fun r h =>
    unregister_of_absent r A h⟩
  set r1 := (register reg info).2 with hr1
  have habsent : registryHasName (unregister r1 A) A = false :=
    registryHasName_unregister _ A
  simp [register, hA2, habsent]

/-- Witness for C6 at a concrete registry and name. -/
theorem names_reusable_after_release_witness :
    (register (unregister (register [] ⟨"veh1", [], 0, 0⟩).2 "veh1")
        ⟨"veh1", [], 2, 2⟩).1 = RegisterReply.OK := by
  exact (names_reusable_after_release [] "veh1" ⟨"veh1", [], 0, 0⟩
    ⟨"veh1", [], 2, 2⟩ rfl rfl).1

/-! ## Snapshot lemmas and Claim C7 -/

theorem mem_names_iff (reg : Registry) (n : String) :
    n ∈ names reg ↔ registryHasName reg n = true := by
  simp only [names, registryHasName, List.any_eq_true, decide_eq_true_eq,
    List.mem_map]

theorem names_append (r1 r2 : Registry) :
    names (r1 ++ r2) = names r1 ++ names r2 := by
  simp [names]

/-- C7: LIST_NODES / snapshot() returns a consistent copy of the registry
ordered by name in which every currently-registered node appears exactly
once: after register(A) and register(B) complete, any subsequent snapshot
contains both A and B exactly once each, and the snapshot after registering
in the other order is the same list. -/
theorem snapshot_registered_once_sorted (reg : Registry) (iA iB : NodeInfo)
    (hnodup : (names reg).Nodup)
    (hAfresh : registryHasName reg iA.name = false)
    (hBfresh : registryHasName reg iB.name = false)
    (hAB : iA.name ≠ iB.name) :
    (snapshot (register (register reg iA).2 iB).2).count iA.name = 1 ∧
    (snapshot (register (register reg iA).2 iB).2).count iB.name = 1 ∧
    List.Sorted (· ≤ ·) (snapshot (register (register reg iA).2 iB).2) ∧
    (snapshot (register (register reg iA).2 iB).2).Nodup ∧
    snapshot (register (register reg iA).2 iB).2 =
      snapshot (register (register reg iB).2 iA).2 := by
  have hAmem : iA.name ∉ names reg := by
    rw [mem_names_iff]
    simp [hAfresh]
  have hBmem : iB.name ∉ names reg := by
    rw [mem_names_iff]
    simp [hBfresh]
  have hregA : (register reg iA).2 = reg ++ [iA] := by
    simp [register, hAfresh]
  have hBfresh1 : registryHasName (reg ++ [iA]) iB.name = false := by
    rw [registryHasName_append_single]
    simp [hBfresh, hAB]
  have hregAB : (register (register reg iA).2 iB).2 = reg ++ [iA] ++ [iB] := by
    rw [hregA]
    simp [register, hBfresh1]
  have hregB : (register reg iB).2 = reg ++ [iB] := by
    simp [register, hBfresh]
  have hAfresh1 : registryHasName (reg ++ [iB]) iA.name = false := by
    rw [registryHasName_append_single]
    simp [hAfresh]
    exact fun h => hAB h.symm
  have hregBA : (register (register reg iB).2 iA).2 = reg ++ [iB] ++ [iA] := by
    rw [hregB]
    simp [register, hAfresh1]
  have hnamesAB : names (reg ++ [iA] ++ [iB]) =
      names reg ++ [iA.name, iB.name] := by
    rw [names_append, names_append]
    simp [names]
  have hnamesBA : names (reg ++ [iB] ++ [iA]) =
      names reg ++ [iB.name, iA.name] := by
    rw [names_append, names_append]
    simp [names]
  have hpermAB : List.Perm (snapshot (reg ++ [iA] ++ [iB]))
      (names reg ++ [iA.name, iB.name]) := by
    rw [snapshot, hnamesAB]
    exact List.perm_insertionSort _ _
  have hcountA : (snapshot (reg ++ [iA] ++ [iB])).count iA.name = 1 := by
    rw [hpermAB.count_eq]
    rw [List.count_append]
    rw [List.count_eq_zero.mpr hAmem]
    simp [List.count_cons, hAB]
  have hcountB : (snapshot (reg ++ [iA] ++ [iB])).count iB.name = 1 := by
    rw [hpermAB.count_eq]
    rw [List.count_append]
    rw [List.count_eq_zero.mpr hBmem]
    have : iB.name ≠ iA.name := fun h => hAB h.symm
    simp [List.count_cons, this]
  have hsortedAB : List.Sorted (· ≤ ·) (snapshot (reg ++ [iA] ++ [iB])) :=
    List.sorted_insertionSort _ _
  have hnodupAB : (snapshot (reg ++ [iA] ++ [iB])).Nodup := by
    refine hpermAB.nodup_iff.mpr ?_
    refine List.Nodup.append hnodup ?_ ?_
    · simp [hAB]
    · intro x hx hx2
      simp only [List.mem_cons, List.mem_singleton] at hx2
      rcases hx2 with h | h
      · exact hAmem (h ▸ hx)
      · simp at h
        exact hBmem (h ▸ hx)
  have heq : snapshot (reg ++ [iA] ++ [iB]) =
      snapshot (reg ++ [iB] ++ [iA]) := by
    have hpermBA : List.Perm (snapshot (reg ++ [iB] ++ [iA]))
        (names reg ++ [iB.name, iA.name]) := by
      rw [snapshot, hnamesBA]
      exact List.perm_insertionSort _ _
    have hmid : List.Perm (names reg ++ [iA.name, iB.name])
        (names reg ++ [iB.name, iA.name]) :=
      List.Perm.append_left _ (List.Perm.swap _ _ _)
    have hsortedBA : List.Sorted (· ≤ ·) (snapshot (reg ++ [iB] ++ [iA])) :=
      List.sorted_insertionSort _ _
    exact List.eq_of_perm_of_sorted
      (hpermAB.trans (hmid.trans hpermBA.symm)) hsortedAB hsortedBA
  rw [hregAB, hregBA]
  exact ⟨hcountA, hcountB, hsortedAB, hnodupAB, heq⟩

/-- Witness for C7 at a concrete registry. -/
theorem snapshot_registered_once_sorted_witness :
    (snapshot (register (register [] ⟨"b", [], 0, 0⟩).2 ⟨"a", [], 1, 1⟩).2).count
        "b" = 1 ∧
    snapshot (register (register [] ⟨"b", [], 0, 0⟩).2 ⟨"a", [], 1, 1⟩).2 =
      snapshot (register (register [] ⟨"a", [], 1, 1⟩).2 ⟨"b", [], 0, 0⟩).2 := by
  have h := snapshot_registered_once_sorted [] ⟨"b", [], 0, 0⟩
    ⟨"a", [], 1, 1⟩ (by simp [names]) (by decide) (by decide) (by decide)
  exact ⟨h.1, h.2.2.2.2⟩

/-! ## requestListOfNodes and Claim C3 -/

/-- Modelled from the spec: the session states strictly before `Registered`
in the ClientSession state machine (spec §3, §4.1): Disconnected and
Connecting. -/
def beforeRegistered : SessionState → Bool
  | SessionState.Disconnected => true
  | SessionState.Connecting => true
  | _ => false

/-- Modelled from the spec: `requestListOfNodes()` (spec §4.1, §5):
synchronous, correlated request/response over the control channel with a
timeout; returns an ordered sequence of node entries; fails with `Timeout`
if no reply within the deadline, fails with `NotConnected` if called before
`Registered`.  The implementation file is missing from src/; `Client.h`
declares `std::vector<InfoPerNode> requestListOfNodes()`.  The environment
is represented by `reply`: `none` when no reply ever arrives (unreachable
server), `some (t, reg)` when the server registry `reg` answers at time `t`.
The function is total, so the call always returns (never hangs). -/
def requestListOfNodes (c : Client) (deadline : Nat)
    (reply : Option (Nat × Registry)) : Except ErrorKind (List String) :=
  if beforeRegistered c.state then Except.error ErrorKind.NotConnected
  else
    match reply with
    | some (t, reg) =>
        if t ≤ deadline then Except.ok (snapshot reg)
        else Except.error ErrorKind.Timeout
    | none => Except.error ErrorKind.Timeout

/-- C3: requestListOfNodes() returns an ordered sequence of node entries; it
fails with Timeout if no reply arrives within the deadline, and fails with
NotConnected when called before the session has reached Registered.  The
function is total on every input (it never hangs and never crashes). -/
theorem requestListOfNodes_spec (c : Client) (deadline : Nat)
    (reply : Option (Nat × Registry)) :
    (beforeRegistered c.state = true →
      requestListOfNodes c deadline reply =
        Except.error ErrorKind.NotConnected) ∧
    (beforeRegistered c.state = false → reply = none →
      requestListOfNodes c deadline reply = Except.error ErrorKind.Timeout) ∧
    (∀ t reg, beforeRegistered c.state = false → reply = some (t, reg) →
      deadline < t →
      requestListOfNodes c deadline reply = Except.error ErrorKind.Timeout) ∧
    (∀ l, requestListOfNodes c deadline reply = Except.ok l →
      List.Sorted (· ≤ ·) l) := by
  refine ⟨?_, ?_, ?_, ?_⟩
  · intro h
    simp [requestListOfNodes, h]
  · intro h hr
    simp [requestListOfNodes, h, hr]
  · intro t reg h hr hlate
    subst hr
    simp [requestListOfNodes, h, Nat.not_le.mpr hlate]
  · intro l hl
    by_cases h : beforeRegistered c.state
    · simp [requestListOfNodes, h] at hl
    · match reply with
      | none => simp [requestListOfNodes, h] at hl
      | some (t, reg) =>
          by_cases ht : t ≤ deadline
          · simp [requestListOfNodes, h, ht] at hl
            rw [← hl]
            exact List.sorted_insertionSort _ _
          · simp [requestListOfNodes, h, ht] at hl

/-- Witness for C3: a client that has not reached Registered gets
NotConnected, and a registered client with no reply gets Timeout. -/
theorem requestListOfNodes_spec_witness :
    requestListOfNodes Client.new 10 none =
      Except.error ErrorKind.NotConnected ∧
    requestListOfNodes { Client.new with state := SessionState.Registered }
        10 none = Except.error ErrorKind.Timeout := by
  refine ⟨(requestListOfNodes_spec Client.new 10 none).1 rfl, ?_⟩
  exact (requestListOfNodes_spec
    { Client.new with state := SessionState.Registered } 10 none).2.1 rfl rfl

/-! ## shutdown and Claims C4, C9 -/

/-- Modelled from the spec: the UNREGISTER send inside `shutdown()` is
best-effort (spec §4.1); `Client.h` declares the private helper
`doUnregisterClient()` whose body is missing from src/.  `sendOk` is whether
the control channel can still deliver the UNREGISTER; when it cannot, the
send step fails with ConnectionLost. -/
def doUnregisterClient (reg : Registry) (c : Client) (sendOk : Bool) :
    Except ErrorKind Registry :=
  if sendOk then Except.ok (unregister reg c.nodeName)
  else Except.error ErrorKind.ConnectionLost

/-- Modelled from the spec: `shutdown()` (spec §4.1): signals the background
context to stop, best-effort sends UNREGISTER (a failure of the send is
swallowed, matching the `noexcept` declaration in `Client.h`), closes all
channels, joins the context; the session ends in `Closed` (spec §4.1 state
table: ShuttingDown → context joined → Closed).  The implementation file is
missing from src/. -/
def shutdown (reg : Registry) (c : Client) (sendOk : Bool) :
    Registry × Client :=
  let reg1 := match doUnregisterClient reg c sendOk with
    | Except.ok r => r
    | Except.error _ => reg
  (reg1,
    { c with
        state := SessionState.Closed
        contextRunning := false
        channelsOpen := false })

/-- The destructor calls `shutdown()`; `Client.h` documents: there is no
need to manually call shutdown, it is called upon destruction. -/
def destructor (reg : Registry) (c : Client) (sendOk : Bool) :
    Registry × Client :=
  shutdown reg c sendOk

/-- C4: shutdown() is idempotent: for every client in every session state,
calling shutdown() twice in sequence leaves the client in the same Closed
state as calling it once, the second call returns normally (the function is
total and returns no error value), and shutdown() is invoked on destruction
of the Client. -/
theorem shutdown_idempotent (reg : Registry) (c : Client) (b b2 : Bool) :
    (shutdown (shutdown reg c b).1 (shutdown reg c b).2 b2).2 =
      (shutdown reg c b).2 ∧
    (shutdown reg c b).2.state = SessionState.Closed ∧
    (b = true → b2 = true →
      shutdown (shutdown reg c b).1 (shutdown reg c b).2 b2 =
        shutdown reg c b) ∧
    destructor reg c b = shutdown reg c b := by
  refine ⟨?_, rfl, ?_, rfl⟩
  · cases b <;> cases b2 <;> rfl
  · intro hb hb2
    subst hb
    subst hb2
    simp [shutdown, doUnregisterClient, unregister_unregister]

/-- Witness for C4 at a concrete registry and client. -/
theorem shutdown_idempotent_witness :
    shutdown
        (shutdown [⟨"veh1", [], 0, 0⟩]
          ⟨"localhost", "veh1", SessionState.Active, true, true⟩ true).1
        (shutdown [⟨"veh1", [], 0, 0⟩]
          ⟨"localhost", "veh1", SessionState.Active, true, true⟩ true).2 true =
      shutdown [⟨"veh1", [], 0, 0⟩]
        ⟨"localhost", "veh1", SessionState.Active, true, true⟩ true := by
  exact (shutdown_idempotent [⟨"veh1", [], 0, 0⟩]
    ⟨"localhost", "veh1", SessionState.Active, true, true⟩ true true).2.2.1
    rfl rfl

/-- C9: shutdown() never propagates an exception to the caller (it is
declared `noexcept` in `Client.h`): the failing inner UNREGISTER send is an
error value that shutdown swallows, so for every client state the call
completes with the same Closed client whether or not the send fails, and
callers — including the destructor — need no error handling around it. -/
theorem shutdown_noexcept_swallows_errors (reg : Registry) (c : Client) :
    doUnregisterClient reg c false = Except.error ErrorKind.ConnectionLost ∧
    (shutdown reg c false).2 = (shutdown reg c true).2 ∧
    (∀ b, (shutdown reg c b).2.state = SessionState.Closed ∧
      (shutdown reg c b).2.contextRunning = false ∧
      (shutdown reg c b).2.channelsOpen = false) := by
  refine ⟨rfl, rfl, ?_⟩
  intro b
  cases b <;> simp [shutdown]

/-! ## Claim C8 -/

/-- C8: A freshly constructed Client has server host address "localhost"
and node name "anonymous" (the defaults of `Client.h`), and both are
configurable before connect(): setName replaces the default node identity
and is only valid while the session is Disconnected, and likewise for the
server host address. -/
theorem fresh_client_defaults :
    Client.new.serverHostAddress = "localhost" ∧
    Client.new.nodeName = "anonymous" ∧
    Client.new.state = SessionState.Disconnected ∧
    (∀ (c : Client) (n : String), c.state = SessionState.Disconnected →
      setName c n = some { c with nodeName := n }) ∧
    (∀ (c : Client) (n : String), c.state ≠ SessionState.Disconnected →
      setName c n = none) ∧
    (∀ (c : Client) (a : String), c.state = SessionState.Disconnected →
      setServerHostAddress c a = some { c with serverHostAddress := a }) ∧
    (∀ (c : Client) (a : String), c.state ≠ SessionState.Disconnected →
      setServerHostAddress c a = none) := by
  refine ⟨rfl, rfl, rfl, ?_, ?_, ?_, ?_⟩
  · intro c n h
    simp [setName, h]
  · intro c n h
    simp [setName, h]
  · intro c a h
    simp [setServerHostAddress, h]
  · intro c a h
    simp [setServerHostAddress, h]

/-- Witness for C8: renaming the fresh client succeeds while Disconnected
and fails once Registered. -/
theorem fresh_client_defaults_witness :
    setName Client.new "veh1" = some { Client.new with nodeName := "veh1" } ∧
    setName { Client.new with state := SessionState.Registered } "veh1" =
      none := by
  refine ⟨fresh_client_defaults.2.2.2.1 Client.new "veh1" rfl, ?_⟩
  exact fresh_client_defaults.2.2.2.2.1
    { Client.new with state := SessionState.Registered } "veh1" (by decide)

/-! ## Envelope codec and Claims C2, C5 -/

/-- Modelled from the spec: the wire Envelope (spec §4.5, glossary): the
unit of message transfer carrying topic, sender, sequence and the opaque
payload bytes.  The implementation file is missing from src/. -/
structure Envelope where
  topic : String
  sender : String
  sequence : Nat
  payload : List Nat
deriving DecidableEq, Repr

/-- The raw bytes of a string (one code point per wire slot). -/
def strBytes (s : String) : List Nat := s.data.map Char.toNat

/-- The string decoded back from raw wire slots. -/
def bytesStr (l : List Nat) : String := String.mk (l.map Char.ofNat)

/-- Modelled from the spec: `encode` (spec §4.5): a fixed-layout header
carrying `topicLength, senderLength, payloadLength, sequence` (one wire slot
per header field), followed by the raw topic bytes, sender bytes and payload
bytes, in that order.  The implementation file is missing from src/. -/
def encode (e : Envelope) : List Nat :=
  (strBytes e.topic).length :: (strBytes e.sender).length ::
    e.payload.length :: e.sequence ::
    (strBytes e.topic ++ strBytes e.sender ++ e.payload)

/-- Modelled from the spec: `decode` (spec §4.5): reads the fixed-layout
header, then the topic, sender and payload bytes; on a truncated input or
length fields inconsistent with the bytes that follow it fails with
`MalformedMessage` (an error value, so nothing is thrown past the caller);
on success it returns the envelope and the unconsumed suffix of the
stream.  The implementation file is missing from src/. -/
def decode (bytes : List Nat) : Except ErrorKind (Envelope × List Nat) :=
  match bytes with
  | tl :: sl :: pl :: seq :: rest =>
      if tl + sl + pl ≤ rest.length then
        Except.ok
          (⟨bytesStr (rest.take tl), bytesStr ((rest.drop tl).take sl), seq,
              ((rest.drop tl).drop sl).take pl⟩,
            ((rest.drop tl).drop sl).drop pl)
      else Except.error ErrorKind.MalformedMessage
  | _ => Except.error ErrorKind.MalformedMessage

/-- Modelled from the spec: decoding from a stream position: on success the
position advances past the consumed bytes; on an error the position is left
unchanged, so subsequent reads on the same stream are not corrupted
(spec §4.5, §7). -/
def streamDecode (st : List Nat) : Except ErrorKind Envelope × List Nat :=
  match decode st with
  | Except.ok (e, rest) => (Except.ok e, rest)
  | Except.error k => (Except.error k, st)

theorem bytesStr_strBytes (s : String) : bytesStr (strBytes s) = s := by
  obtain ⟨d⟩ := s
  simp [bytesStr, strBytes, List.map_map, Function.comp_def, Char.ofNat_toNat]

theorem decode_short (b : List Nat) (h : b.length < 4) :
    decode b = Except.error ErrorKind.MalformedMessage := by
  match b with
  | [] => rfl
  | [a] => rfl
  | [a, a2] => rfl
  | [a, a2, a3] => rfl
  | a :: a2 :: a3 :: a4 :: rest =>
      exfalso
      simp only [List.length_cons] at h
      omega

theorem decode_insufficient (tl sl pl seq : Nat) (rest : List Nat)
    (h : rest.length < tl + sl + pl) :
    decode (tl :: sl :: pl :: seq :: rest) =
      Except.error ErrorKind.MalformedMessage := by
  simp only [decode]
  rw [if_neg (Nat.not_le.mpr h)]

theorem streamDecode_of_error (b : List Nat) (k : ErrorKind)
    (h : decode b = Except.error k) : streamDecode b = (Except.error k, b) := by
  simp [streamDecode, h]

/-- C2: For every envelope e with any topic string, any sender string, and
any payload of length ≥ 0, decode(encode(e)) returns exactly e, with the
whole encoding consumed — a byte-for-byte round-trip of the fixed-layout
wire format. -/
theorem decode_encode_roundtrip (e : Envelope) :
    decode (encode e) = Except.ok (e, []) := by
  obtain ⟨t, sd, q, p⟩ := e
  have hlen : (strBytes t).length + (strBytes sd).length + p.length ≤
      (strBytes t ++ strBytes sd ++ p).length := by
    simp only [List.length_append]
    omega
  simp only [encode, decode]
  rw [if_pos hlen]
  rw [List.append_assoc]
  rw [List.take_left, List.drop_left]
  rw [List.take_left, List.drop_left]
  rw [List.take_length, List.drop_length]
  rw [bytesStr_strBytes, bytesStr_strBytes]

/-- C5: For every byte sequence that is truncated (shorter than the header,
or a strict prefix of an encoded envelope) or whose length fields are
inconsistent with the bytes that follow, decode fails with MalformedMessage;
the error is a returned value (nothing is thrown past the caller) and the
stream position is left unchanged on error, so subsequent reads on the same
stream are not corrupted. -/
theorem decode_malformed_on_truncated (b : List Nat) (tl sl pl seq : Nat)
    (rest : List Nat) (e : Envelope) (k : Nat) :
    (b.length < 4 →
      streamDecode b = (Except.error ErrorKind.MalformedMessage, b)) ∧
    (rest.length < tl + sl + pl →
      streamDecode (tl :: sl :: pl :: seq :: rest) =
        (Except.error ErrorKind.MalformedMessage,
          tl :: sl :: pl :: seq :: rest)) ∧
    (k < (encode e).length →
      streamDecode ((encode e).take k) =
        (Except.error ErrorKind.MalformedMessage, (encode e).take k)) := by
  refine ⟨?_, ?_, ?_⟩
  · intro h
    exact streamDecode_of_error _ _ (decode_short b h)
  · intro h
    exact streamDecode_of_error _ _ (decode_insufficient tl sl pl seq rest h)
  · intro hk
    by_cases h4 : k < 4
    · refine streamDecode_of_error _ _ (decode_short _ ?_)
      have := List.length_take k (encode e)
      omega
    · obtain ⟨m, rfl⟩ : ∃ m, k = m + 4 := ⟨k - 4, by omega⟩
      obtain ⟨t, sd, q, p⟩ := e
      have htake : (encode ⟨t, sd, q, p⟩).take (m + 4) =
          (strBytes t).length :: (strBytes sd).length :: p.length :: q ::
            (strBytes t ++ strBytes sd ++ p).take m := by
        simp only [encode]
        rfl
      have hm : m < (strBytes t ++ strBytes sd ++ p).length := by
        have := hk
        simp only [encode, List.length_cons] at this
        omega
      have hrest : ((strBytes t ++ strBytes sd ++ p).take m).length <
          (strBytes t).length + (strBytes sd).length + p.length := by
        rw [List.length_take]
        simp only [List.length_append] at hm ⊢
        omega
      rw [htake]
      exact streamDecode_of_error _ _
        (decode_insufficient _ _ _ _ _ hrest)

/-- Witness for C5 at concrete truncated inputs. -/
theorem decode_malformed_on_truncated_witness :
    streamDecode [3, 0] = (Except.error ErrorKind.MalformedMessage, [3, 0]) ∧
    streamDecode [2, 0, 0, 7, 9] =
      (Except.error ErrorKind.MalformedMessage, [2, 0, 0, 7, 9]) ∧
    streamDecode ((encode ⟨"ab", "c", 7, [1, 2]⟩).take 6) =
      (Except.error ErrorKind.MalformedMessage,
        (encode ⟨"ab", "c", 7, [1, 2]⟩).take 6) := by
  have h1 := (decode_malformed_on_truncated [3, 0] 2 0 0 7 [9]
    ⟨"ab", "c", 7, [1, 2]⟩ 6).1 (by decide)
  have h2 := (decode_malformed_on_truncated [3, 0] 2 0 0 7 [9]
    ⟨"ab", "c", 7, [1, 2]⟩ 6).2.1 (by decide)
  have h3 := (decode_malformed_on_truncated [3, 0] 2 0 0 7 [9]
    ⟨"ab", "c", 7, [1, 2]⟩ 6).2.2 (by decide)
  exact ⟨h1, h2, h3⟩

/-! ## VehicleBase pose accessors and Claim C10 -/

/-- Pose record mirroring `mrpt::math::TPose3D` (x, y, z, yaw, pitch, roll);
the C++ doubles are modelled as rationals — no arithmetic is performed on
them by the accessors under verification, only storage and retrieval. -/
structure TPose3D where
  x : ℚ
  y : ℚ
  z : ℚ
  yaw : ℚ
  pitch : ℚ
  roll : ℚ
deriving DecidableEq, Repr

/-- Velocity record mirroring `mvsim::vec3`. -/
structure Vec3 where
  vals0 : ℚ
  vals1 : ℚ
  vals2 : ℚ
deriving DecidableEq, Repr

/-- Point record mirroring `mrpt::math::TPoint2D`. -/
structure TPoint2D where
  x : ℚ
  y : ℚ
deriving DecidableEq, Repr

/-- The data fields of `mvsim::VehicleBase` (`VehicleBase.h`): `m_name`,
`m_vehicle_index`, `m_q` (last time-step pose of the reference point, in
global coordinates), `m_dq` (last time-step velocity), the torque log and
the chassis parameters.  Opaque engine handles (Box2D bodies/fixtures,
OpenGL objects, loggers, sensors) are omitted: the pose accessors under
verification never touch them. -/
structure VehicleBase where
  m_name : String
  m_vehicle_index : Nat
  m_q : TPose3D
  m_dq : Vec3
  m_torque_per_wheel : List ℚ
  m_chassis_mass : ℚ
  m_max_radius : ℚ
  m_chassis_z_min : ℚ
  m_chassis_z_max : ℚ
  m_chassis_com : TPoint2D
deriving DecidableEq, Repr

/-- `VehicleBase::getPose` (`VehicleBase.h`): returns `m_q`. -/
def getPose (v : VehicleBase) : TPose3D := v.m_q

/-- `VehicleBase::setPose` (`VehicleBase.h`): declared `const` and writes
the new pose through `const_cast<mrpt::math::TPose3D&>(m_q) = p`, so the
only field it assigns is `m_q`. -/
def setPose (v : VehicleBase) (p : TPose3D) : VehicleBase :=
  { v with m_q := p }

/-- C10: For every VehicleBase and every pose p, setPose(p) — callable even
through a const reference because the member function is declared const in
`VehicleBase.h` — makes the subsequent getPose() return exactly p, and
changes no field of the vehicle other than the stored pose m_q. -/
theorem setPose_then_getPose (v : VehicleBase) (p : TPose3D) :
    getPose (setPose v p) = p ∧
    (setPose v p).m_name = v.m_name ∧
    (setPose v p).m_vehicle_index = v.m_vehicle_index ∧
    (setPose v p).m_dq = v.m_dq ∧
    (setPose v p).m_torque_per_wheel = v.m_torque_per_wheel ∧
    (setPose v p).m_chassis_mass = v.m_chassis_mass ∧
    (setPose v p).m_max_radius = v.m_max_radius ∧
    (setPose v p).m_chassis_z_min = v.m_chassis_z_min ∧
    (setPose v p).m_chassis_z_max = v.m_chassis_z_max ∧
    (setPose v p).m_chassis_com = v.m_chassis_com := by
  exact ⟨rfl, rfl, rfl, rfl, rfl, rfl, rfl, rfl, rfl, rfl⟩

end Mvsim
